import Mathlib

/-!
Shallow embedding of the KalshiTradingApplication backend.

From `src/Backend/TradingAndQuatifying/CommonStatCalculations.py`: the odds
calculator class `StatCalculations`, modelled as explicit state passing over a
record of optional cached attributes.  Python attribute access on a
never-assigned attribute is an `attributeError`; Python `/` applied to a zero
denominator is a `zeroDivision` (the `DomainError` class of the
specification); fallible code returns `Except`.  Python floats are modelled
as rationals.

From `src/Backend/API/main.py`: the order registry operations `place_order`,
`get_open_orders`, `get_order`.  The registry `STATE["orders"]` is a Python
dict keyed by order id, modelled as a `List Order` in insertion order with
dict assignment (`dictInsert`) replacing the entry carrying the same id or
appending a new one.  `uuid.uuid4()` is modelled by passing the freshly
generated identifier as an explicit argument.  The `created_at` timestamp
(`datetime.utcnow()`) carries no logic and is outside the embedding.
-/

namespace Kalshi

/-- Python exceptions raised by the odds-calculator module: `zeroDivision`
models `ZeroDivisionError` (the class the specification calls `DomainError`:
division by zero from degenerate probability or odds inputs), and
`attributeError name` models `AttributeError` on reading the never-assigned
attribute `name` (the early-access class the specification calls
`UninitializedState`). -/
inductive PyErr where
  | zeroDivision
  | attributeError (name : String)
deriving DecidableEq, Repr

/-- Python `/` on rationals: raises `ZeroDivisionError` when the denominator
is zero. -/
def pydiv (a b : ℚ) : Except PyErr ℚ :=
  if b = 0 then .error .zeroDivision else .ok (a / b)

/-- Python attribute read on a field that may never have been assigned:
`AttributeError` when it is absent. -/
def readAttr (v : Option ℚ) (name : String) : Except PyErr ℚ :=
  match v with
  | some x => .ok x
  | none => .error (.attributeError name)

/-- The instance state of `StatCalculations`.  Each private attribute is
`none` until first assigned.  The `expected_value` method of the source
assigns `self.__expected_value`, an attribute distinct from the
`__expectedValue` read in `__init__`; both are modelled. -/
structure StatState where
  currentOdds : Option ℚ
  expectedValue : Option ℚ
  americanOdds : Option ℚ
  optimalBetSize : Option ℚ
  expected_value_attr : Option ℚ
deriving DecidableEq, Repr

/-- `StatCalculations.__init__`: assigns `__currentOdds`, then evaluates the
bare attribute reads `self.__expectedValue`, `self.__americanOdds`,
`self.__optimalBetSize` (name-mangled to `_StatCalculations__...`), none of
which was ever assigned. -/
def StatCalculations_init (currentOdds : ℚ) : Except PyErr StatState := do
  let s : StatState :=
    { currentOdds := some currentOdds, expectedValue := none,
      americanOdds := none, optimalBetSize := none, expected_value_attr := none }
  let _ ← readAttr s.expectedValue "_StatCalculations__expectedValue"
  let _ ← readAttr s.americanOdds "_StatCalculations__americanOdds"
  let _ ← readAttr s.optimalBetSize "_StatCalculations__optimalBetSize"
  return s

/-- `StatCalculations.implied_probability_to_american`. -/
def implied_probability_to_american (s : StatState) (currentOdds : ℚ) :
    Except PyErr (ℚ × StatState) := do
  if currentOdds < 1/2 then
    let decimalOdds ← pydiv 100 currentOdds
    let americanOdds := decimalOdds - 100
    return (americanOdds, { s with americanOdds := some americanOdds })
  else
    let americanOdds ← pydiv (-(100 * currentOdds)) (1 - currentOdds)
    return (americanOdds, { s with americanOdds := some americanOdds })

/-- `StatCalculations.american_to_decimal` (reads no instance state). -/
def american_to_decimal (americanOdds : ℚ) : Except PyErr ℚ := do
  if 0 < americanOdds then
    let q ← pydiv americanOdds 100
    return 1 + q
  else
    let q ← pydiv 100 |americanOdds|
    return 1 + q

/-- `StatCalculations.american_to_net` (reads no instance state). -/
def american_to_net (american_odds : ℚ) : Except PyErr ℚ := do
  let d ← american_to_decimal american_odds
  return d - 1

/-- `StatCalculations.expected_value`; assigns `self.__expected_value`.  The
default stake in the source is `1.0`; the stake is passed explicitly here. -/
def expected_value (s : StatState) (prob odds stake : ℚ) :
    Except PyErr (ℚ × StatState) := do
  let b ← american_to_net odds
  let ev := (prob * b * stake) - ((1 - prob) * stake)
  return (ev, { s with expected_value_attr := some ev })

/-- `StatCalculations.kelly_criterion`: reads `self.__currentOdds` and
`self.__americanOdds`, computes the Kelly fraction and clamps it at 0. -/
def kelly_criterion (s : StatState) : Except PyErr (ℚ × StatState) := do
  let probOfWinning ← readAttr s.currentOdds "_StatCalculations__currentOdds"
  let probOfLoss := 1 - probOfWinning
  let ao ← readAttr s.americanOdds "_StatCalculations__americanOdds"
  let netOdds ← american_to_net ao
  let raw ← pydiv ((netOdds * probOfWinning) - probOfLoss) netOdds
  let optimalBetSize := max 0 raw
  return (optimalBetSize, { s with optimalBetSize := some optimalBetSize })

/-- The American odds value claim C6 asserts for probability `p`:
`(100/p) - 100` below one half, `-(100 p)/(1-p)` otherwise. -/
def impliedFormula (p : ℚ) : ℚ :=
  if p < 1/2 then 100 / p - 100 else -(100 * p) / (1 - p)

/-- `Side` enum of `main.py`. -/
inductive Side where
  | BUY | SELL
deriving DecidableEq, Repr

/-- `OrderType` enum of `main.py`. -/
inductive OrderType where
  | MARKET | LIMIT
deriving DecidableEq, Repr

/-- `TimeInForce` enum of `main.py`. -/
inductive TimeInForce where
  | DAY | GTC
deriving DecidableEq, Repr

/-- `OrderRequest` model of `main.py`.  The pydantic boundary constraints
(`qty > 0`, `limit_price > 0` when present) are request-construction
validation, not logic of `place_order`. -/
structure OrderRequest where
  symbol : String
  side : Side
  qty : ℚ
  order_type : OrderType
  limit_price : Option ℚ
  tif : TimeInForce
  client_order_id : Option String
deriving DecidableEq, Repr

/-- `Order` model of `main.py`.  `status` is a plain string in the source
("NEW" | "PARTIALLY_FILLED" | "FILLED" | "CANCELED" | "REJECTED");
`created_at` is outside the embedding. -/
structure Order where
  id : String
  symbol : String
  side : Side
  qty : ℚ
  order_type : OrderType
  limit_price : Option ℚ
  tif : TimeInForce
  status : String
  avg_fill_price : Option ℚ
  filled_qty : ℚ
deriving DecidableEq, Repr

/-- `fastapi.HTTPException` with its status code and detail string. -/
inductive HttpErr where
  | httpException (status_code : Nat) (detail : String)
deriving DecidableEq, Repr

/-- Python truthiness of an `Optional[str]`: `None` and the empty string are
falsy. -/
def strTruthy : Option String → Bool
  | none => false
  | some s => !s.isEmpty

/-- Python `x or y` on an `Optional[str]` `x`: yields `y` when `x` is falsy
(`None` or empty). -/
def pyOrStr (x : Option String) (y : String) : String :=
  match x with
  | some s => if s.isEmpty then y else s
  | none => y

/-- The idempotency scan of `place_order`:
`for o in STATE["orders"].values(): if req.client_order_id and o.id == req.client_order_id: return o`. -/
def idemScan (reg : List Order) (cid : Option String) : Option Order :=
  reg.find? (fun o => strTruthy cid && cid.getD "" == o.id)

/-- Python dict assignment `STATE["orders"][order.id] = order` on the
registry: replace the entry carrying the same id in place, else append. -/
def dictInsert (reg : List Order) (o : Order) : List Order :=
  if reg.any (fun e => e.id == o.id) then
    reg.map (fun e => if e.id == o.id then o else e)
  else reg ++ [o]

/-- The `Order(...)` construction inside `place_order`: upper-cased symbol,
status "NEW", no average fill price, zero filled quantity. -/
def mkOrder (req : OrderRequest) (order_id : String) : Order :=
  { id := order_id, symbol := req.symbol.toUpper, side := req.side,
    qty := req.qty, order_type := req.order_type, limit_price := req.limit_price,
    tif := req.tif, status := "NEW", avg_fill_price := none, filled_qty := 0 }

/-- `place_order` of `main.py`.  `freshId` is the value `str(uuid.uuid4())`
would produce at this call.  Returns the HTTP result together with the
registry after the call. -/
def place_order (reg : List Order) (req : OrderRequest) (freshId : String) :
    Except HttpErr Order × List Order :=
  if req.order_type = OrderType.LIMIT ∧ req.limit_price = none then
    (.error (.httpException 400 "limit_price required for LIMIT orders"), reg)
  else
    match idemScan reg req.client_order_id with
    | some o => (.ok o, reg)
    | none =>
      let order := mkOrder req (pyOrStr req.client_order_id freshId)
      (.ok order, dictInsert reg order)

/-- `get_open_orders` of `main.py`: the orders whose status is in
`{"NEW", "PARTIALLY_FILLED"}`. -/
def get_open_orders (reg : List Order) : List Order :=
  reg.filter (fun o => o.status == "NEW" || o.status == "PARTIALLY_FILLED")

/-- `get_order` of `main.py`: dict lookup by id, 404 when absent.  Returns
the HTTP result together with the registry after the call. -/
def get_order (reg : List Order) (order_id : String) :
    Except HttpErr Order × List Order :=
  match reg.find? (fun o => o.id == order_id) with
  | some o => (.ok o, reg)
  | none => (.error (.httpException 404 "Order not found"), reg)

/-- Concrete calculator state used by witnesses: current odds 2/5 stored, no
American odds computed yet. -/
def statEx : StatState :=
  { currentOdds := some (2/5), expectedValue := none, americanOdds := none,
    optimalBetSize := none, expected_value_attr := none }

/-- Concrete calculator state used by the Kelly witness: current odds 3/5
stored, American odds -150 cached. -/
def kellyEx : StatState :=
  { currentOdds := some (3/5), expectedValue := none, americanOdds := some (-150),
    optimalBetSize := none, expected_value_attr := none }

/-- Concrete request whose client order id is the empty string: non-null,
yet falsy for Python truthiness. -/
def reqEmptyCid : OrderRequest :=
  { symbol := "aapl", side := .BUY, qty := 1, order_type := .MARKET,
    limit_price := none, tif := .DAY, client_order_id := some "" }

/-- Concrete request with a non-empty client order id. -/
def reqCid : OrderRequest :=
  { symbol := "aapl", side := .BUY, qty := 1, order_type := .MARKET,
    limit_price := none, tif := .DAY, client_order_id := some "abc" }

theorem exBind_ok {e a b : Type} (x : a) (f : a → Except e b) :
    (Except.ok x >>= f) = f x := rfl

theorem exBind_error {e a b : Type} (err : e) (f : a → Except e b) :
    ((Except.error err : Except e a) >>= f) = .error err := rfl

theorem american_to_net_ok_pos {a n : ℚ} (h : american_to_net a = .ok n) : 0 < n := by
  rcases lt_trichotomy a 0 with hneg | rfl | hpos
  · have habs : |a| ≠ 0 := abs_ne_zero.mpr (ne_of_lt hneg)
    have hna : ¬ (0 < a) := not_lt.mpr (le_of_lt hneg)
    simp [american_to_net, american_to_decimal, pydiv, hna, habs] at h
    rw [← h]
    have : 0 < |a| := abs_pos.mpr (ne_of_lt hneg)
    positivity
  · simp [american_to_net, american_to_decimal, pydiv] at h
  · simp [american_to_net, american_to_decimal, pydiv, hpos] at h
    rw [← h]
    positivity

theorem find_replaceAll (reg : List Order) (o : Order)
    (h : reg.any (fun e => e.id == o.id) = true) :
    (reg.map (fun e => if e.id == o.id then o else e)).find?
      (fun e => e.id == o.id) = some o := by
  induction reg with
  | nil => simp at h
  | cons a t ih =>
    by_cases ha : a.id = o.id
    · simp [ha]
    · have h' : t.any (fun e => e.id == o.id) = true := by
        rcases List.any_eq_true.mp h with ⟨x, hx, hpx⟩
        rcases List.mem_cons.mp hx with rfl | hxt
        · exact absurd (by simpa using hpx) ha
        · exact List.any_eq_true.mpr ⟨x, hxt, hpx⟩
      simpa [List.map_cons, ha] using ih h'

theorem dictInsert_find (reg : List Order) (o : Order) :
    (dictInsert reg o).find? (fun e => e.id == o.id) = some o := by
  unfold dictInsert
  by_cases hc : reg.any (fun e => e.id == o.id) = true
  · rw [if_pos hc]; exact find_replaceAll reg o hc
  · rw [if_neg hc, List.find?_append]
    have h0 : reg.find? (fun e => e.id == o.id) = none := by
      rw [List.find?_eq_none]
      intro x hx hpx
      exact hc (List.any_eq_true.mpr ⟨x, hx, hpx⟩)
    rw [h0]
    simp

/-- Claim C2: constructing `StatCalculations(currentOdds)` always raises
`AttributeError`, because the constructor evaluates the bare read
`self.__expectedValue` (and then `self.__americanOdds`,
`self.__optimalBetSize`) without ever assigning them; the first read already
fails, so no instance of the odds calculator is ever successfully
constructed and no method is reachable through a constructed instance. -/
theorem C2_constructor_always_raises (c : ℚ) :
    StatCalculations_init c =
      .error (.attributeError "_StatCalculations__expectedValue") := rfl

/-- Claim C3: `implied_probability_to_american` fails with the
division-by-zero error (the class the specification names `DomainError`) at
probability 0 (underdog branch, `100/0`) and at probability 1 (other branch,
`-100/0`), and `american_to_decimal` fails with it at American odds 0
(`100/abs(0)`). -/
theorem C3_degenerate_inputs_divide_by_zero (s : StatState) :
    implied_probability_to_american s 0 = .error .zeroDivision ∧
    implied_probability_to_american s 1 = .error .zeroDivision ∧
    american_to_decimal 0 = .error .zeroDivision := by
  refine ⟨?_, ?_, ?_⟩ <;>
    norm_num [implied_probability_to_american, american_to_decimal, pydiv]

/-- Claim C6: for every probability strictly between 0 and 1,
`implied_probability_to_american` returns `(100/p) - 100` when `p < 0.5` and
`-(100 p)/(1-p)` otherwise (`impliedFormula p`), and stores the returned
value as the current American odds of the instance.  The particular values
150 at p = 0.4 and -150 at p = 0.6 are checked in the witness. -/
theorem C6_implied_probability_formula (s : StatState) (p : ℚ)
    (h0 : 0 < p) (h1 : p < 1) :
    implied_probability_to_american s p =
      .ok (impliedFormula p, { s with americanOdds := some (impliedFormula p) }) := by
  by_cases hp : p < 1/2
  · simp only [implied_probability_to_american, impliedFormula, if_pos hp, pydiv,
      if_neg h0.ne', exBind_ok, exBind_error]
    rfl
  · have h1p : (1 : ℚ) - p ≠ 0 := sub_ne_zero.mpr (ne_of_gt h1)
    simp only [implied_probability_to_american, impliedFormula, if_neg hp, pydiv,
      if_neg h1p, exBind_ok, exBind_error]
    rfl

/-- Witness for C6 at p = 2/5 and p = 3/5: the conversion returns 150 and
-150 respectively and caches the result. -/
theorem C6_witness :
    implied_probability_to_american statEx (2/5) =
      .ok (150, { statEx with americanOdds := some 150 }) ∧
    implied_probability_to_american statEx (3/5) =
      .ok (-150, { statEx with americanOdds := some (-150) }) := by
  constructor
  · have h := C6_implied_probability_formula statEx (2/5) (by norm_num) (by norm_num)
    rw [h]; norm_num [impliedFormula]
  · have h := C6_implied_probability_formula statEx (3/5) (by norm_num) (by norm_num)
    rw [h]; norm_num [impliedFormula]

/-- Claim C4: on a state holding current odds `p` and cached American odds
`a` whose net odds are `n`, `kelly_criterion` returns
`max 0 ((n * p - (1 - p)) / n)` and caches it. -/
theorem C4_kelly_formula (s : StatState) (p a n : ℚ)
    (hp : s.currentOdds = some p) (ha : s.americanOdds = some a)
    (hn : american_to_net a = .ok n) :
    kelly_criterion s =
      .ok (max 0 ((n * p - (1 - p)) / n),
        { s with optimalBetSize := some (max 0 ((n * p - (1 - p)) / n)) }) := by
  have hpos := american_to_net_ok_pos hn
  simp [kelly_criterion, readAttr, hp, ha, hn, pydiv, hpos.ne', exBind_ok, exBind_error]

/-- Witness for C4 at stored current odds 3/5 and stored American odds -150:
net odds are 2/3 and the Kelly fraction is exactly 0. -/
theorem C4_witness :
    kelly_criterion kellyEx = .ok (0, { kellyEx with optimalBetSize := some 0 }) := by
  have hn : american_to_net (-150) = .ok (2/3) := by
    norm_num [american_to_net, american_to_decimal, pydiv]
  have h := C4_kelly_formula kellyEx (3/5) (-150) (2/3) rfl rfl hn
  rw [h]; norm_num

/-- Claim C5: invoking `kelly_criterion` before
`implied_probability_to_american` has cached an American odds value fails
(rather than returning a value) with the error of reading the never-assigned
attribute `__americanOdds` — `AttributeError`, the early-access failure the
specification names `UninitializedState`. -/
theorem C5_kelly_before_conversion_fails (s : StatState) (p : ℚ)
    (hp : s.currentOdds = some p) (ha : s.americanOdds = none) :
    kelly_criterion s = .error (.attributeError "_StatCalculations__americanOdds") := by
  simp [kelly_criterion, readAttr, hp, ha, exBind_ok, exBind_error]

/-- Witness for C5 on a state with current odds stored and no American odds
computed. -/
theorem C5_witness :
    kelly_criterion statEx =
      .error (.attributeError "_StatCalculations__americanOdds") :=
  C5_kelly_before_conversion_fails statEx (2/5) rfl rfl

/-- Claim C7: `place_order` fails, and fails with the 400 `InvalidRequest`
error, exactly when the order type is LIMIT and the limit price is absent;
on any failure the registry is unchanged; a LIMIT request with a limit price
present succeeds. -/
theorem C7_limit_validation (reg : List Order) (req : OrderRequest) (fid : String) :
    ((place_order reg req fid).1 =
        .error (.httpException 400 "limit_price required for LIMIT orders") ↔
      (req.order_type = .LIMIT ∧ req.limit_price = none)) ∧
    (∀ e, (place_order reg req fid).1 = .error e → (place_order reg req fid).2 = reg) ∧
    (req.order_type = .LIMIT → req.limit_price ≠ none →
      ∃ o, (place_order reg req fid).1 = .ok o) := by
  by_cases hc : req.order_type = OrderType.LIMIT ∧ req.limit_price = none
  · refine ⟨by simp [place_order, hc], by simp [place_order, hc], ?_⟩
    intro _ hp
    exact absurd hc.2 hp
  · cases h : idemScan reg req.client_order_id with
    | none => simp [place_order, hc, h]
    | some o => simp [place_order, hc, h]

/-- Claim C9: `get_open_orders` returns exactly the orders of the registry
whose status is NEW or PARTIALLY_FILLED; orders with status FILLED, CANCELED
or REJECTED are never returned. -/
theorem C9_open_orders_exact (reg : List Order) (o : Order) :
    (o ∈ get_open_orders reg ↔
      o ∈ reg ∧ (o.status = "NEW" ∨ o.status = "PARTIALLY_FILLED")) ∧
    ((o.status = "FILLED" ∨ o.status = "CANCELED" ∨ o.status = "REJECTED") →
      o ∉ get_open_orders reg) := by
  constructor
  · simp [get_open_orders, List.mem_filter]
  · intro h hmem
    have hmem' : o.status = "NEW" ∨ o.status = "PARTIALLY_FILLED" := by
      have h2 := hmem
      simp [get_open_orders, List.mem_filter] at h2
      exact h2.2
    rcases h with h | h | h <;> rcases hmem' with h' | h' <;> rw [h] at h' <;> simp at h'

/-- Claim C10: `get_order` leaves the registry unchanged; it returns an
order of the registry bearing the requested id when one exists, and fails
with the 404 `NotFound` error when none does. -/
theorem C10_get_order_lookup (reg : List Order) (oid : String) :
    ((get_order reg oid).2 = reg) ∧
    ((∃ o, o ∈ reg ∧ o.id = oid) →
      ∃ o, (get_order reg oid).1 = .ok o ∧ o ∈ reg ∧ o.id = oid) ∧
    ((∀ o, o ∈ reg → o.id ≠ oid) →
      (get_order reg oid).1 = .error (.httpException 404 "Order not found")) := by
  refine ⟨?_, ?_, ?_⟩
  · cases h : reg.find? (fun o => o.id == oid) <;> simp [get_order, h]
  · rintro ⟨o, ho, hid⟩
    cases h : reg.find? (fun o => o.id == oid) with
    | none =>
      exact absurd (by simp [hid]) (List.find?_eq_none.mp h o ho)
    | some o' =>
      exact ⟨o', by simp [get_order, h], List.mem_of_find?_eq_some h,
        by simpa using List.find?_some h⟩
  · intro hall
    cases h : reg.find? (fun o => o.id == oid) with
    | some o' =>
      exact absurd (by simpa using List.find?_some h)
        (hall o' (List.mem_of_find?_eq_some h))
    | none => simp [get_order, h]

/-- Counterexample to claim C1 as stated: the request `reqEmptyCid` has the
non-null client order id `""`, which Python truthiness treats as unset.  On
an initially empty registry the first call creates an order, and the second
call creates a second one: the registry grows from one entry to two and the
two calls return orders with different identifiers, contradicting the
claimed no-new-order, no-size-increase behaviour for every non-null id. -/
theorem C1_counterexample :
    reqEmptyCid.client_order_id = some "" ∧
    (place_order [] reqEmptyCid "u1").2.length = 1 ∧
    (place_order (place_order [] reqEmptyCid "u1").2 reqEmptyCid "u2").2.length = 2 ∧
    (place_order (place_order [] reqEmptyCid "u1").2 reqEmptyCid "u2").1.toOption.map Order.id ≠
      (place_order [] reqEmptyCid "u1").1.toOption.map Order.id := by
  decide

/-- Claim C1 as amended: for every request whose client order id is non-null
AND non-empty (and which passes LIMIT validation), the first call returns an
order, and a second call on the resulting registry returns exactly the first
call result: the same order and the very same registry, so nothing is
mutated and the registry size does not increase. -/
theorem C1_idempotent_resubmission (reg : List Order) (req : OrderRequest)
    (cid fid1 fid2 : String)
    (hcid : req.client_order_id = some cid) (hne : cid ≠ "")
    (hval : ¬ (req.order_type = OrderType.LIMIT ∧ req.limit_price = none)) :
    (∃ o, (place_order reg req fid1).1 = .ok o) ∧
    place_order (place_order reg req fid1).2 req fid2 = place_order reg req fid1 := by
  have hbe : cid.isEmpty = false := by
    rw [Bool.eq_false_iff]
    intro hT
    exact hne ((String.isEmpty_iff cid).mp hT)
  cases h : idemScan reg req.client_order_id with
  | some o =>
    have h1 : place_order reg req fid1 = (.ok o, reg) := by
      simp [place_order, hval, h]
    refine ⟨⟨o, by rw [h1]⟩, ?_⟩
    rw [h1]
    simp [place_order, hval, h]
  | none =>
    have hid : (mkOrder req (pyOrStr req.client_order_id fid1)).id = cid := by
      simp [mkOrder, pyOrStr, hcid, hbe]
    have h1 : place_order reg req fid1 =
        (.ok (mkOrder req (pyOrStr req.client_order_id fid1)),
         dictInsert reg (mkOrder req (pyOrStr req.client_order_id fid1))) := by
      simp [place_order, hval, h]
    have hnone : ∀ e ∈ reg, e.id ≠ cid := by
      intro e he heq
      have h' : (reg.find? fun o => strTruthy req.client_order_id &&
          req.client_order_id.getD "" == o.id) = none := h
      have hp := List.find?_eq_none.mp h' e he
      rw [hcid] at hp
      apply hp
      simp [strTruthy, hbe, heq]
    have hins : dictInsert reg (mkOrder req (pyOrStr req.client_order_id fid1)) =
        reg ++ [mkOrder req (pyOrStr req.client_order_id fid1)] := by
      rw [dictInsert, if_neg]
      intro hc
      obtain ⟨e, he, heq⟩ := List.any_eq_true.mp hc
      exact hnone e he (by simpa [hid] using heq)
    have hscan2 : idemScan (reg ++ [mkOrder req (pyOrStr req.client_order_id fid1)])
        req.client_order_id = some (mkOrder req (pyOrStr req.client_order_id fid1)) := by
      unfold idemScan
      rw [List.find?_append]
      have h0 : (reg.find? fun o => strTruthy req.client_order_id &&
          req.client_order_id.getD "" == o.id) = none := by
        simpa [idemScan] using h
      rw [h0]
      have hid' := hid
      rw [hcid] at hid'
      simp [hcid, strTruthy, hbe, hid']
    refine ⟨⟨mkOrder req (pyOrStr req.client_order_id fid1), by rw [h1]⟩, ?_⟩
    rw [h1]
    rw [show (Except.ok (mkOrder req (pyOrStr req.client_order_id fid1)),
         dictInsert reg (mkOrder req (pyOrStr req.client_order_id fid1))).2 =
         dictInsert reg (mkOrder req (pyOrStr req.client_order_id fid1)) from rfl]
    rw [hins]
    simp [place_order, hval, hscan2, hins]

/-- Witness for the amended C1 at a concrete request carrying client order
id "abc" on the empty registry. -/
theorem C1_witness :
    (∃ o, (place_order [] reqCid "u1").1 = .ok o) ∧
    place_order (place_order [] reqCid "u1").2 reqCid "u2" = place_order [] reqCid "u1" :=
  C1_idempotent_resubmission [] reqCid "abc" "u1" "u2" rfl (by decide) (by decide)

/-- Counterexample to claim C8 as stated: with the supplied (non-null)
client order id `""`, the created order does not receive the supplied
identifier — it receives the freshly generated UUID instead, because Python
`or` treats the empty string as absent. -/
theorem C8_counterexample :
    reqEmptyCid.client_order_id = some "" ∧
    (place_order [] reqEmptyCid "fresh-1").1.toOption.map Order.id = some "fresh-1" ∧
    ("fresh-1" : String) ≠ "" := by
  decide

/-- Claim C8 as amended: when no matching idempotency key is found and
validation passes, `place_order` creates an order with upper-cased symbol,
status NEW, filled quantity 0, average fill price unset, identifier equal to
the supplied client order id when that id is non-empty and equal to the
freshly generated UUID when the client order id is null or empty, and
inserts it into the registry keyed by that identifier (a lookup of that key
in the resulting registry yields the order). -/
theorem C8_new_order_creation (reg : List Order) (req : OrderRequest) (fid : String)
    (hval : ¬ (req.order_type = OrderType.LIMIT ∧ req.limit_price = none))
    (hscan : idemScan reg req.client_order_id = none) :
    ∃ o, place_order reg req fid = (.ok o, dictInsert reg o) ∧
      o.symbol = req.symbol.toUpper ∧ o.status = "NEW" ∧
      o.filled_qty = 0 ∧ o.avg_fill_price = none ∧
      (∀ s, req.client_order_id = some s → s ≠ "" → o.id = s) ∧
      ((req.client_order_id = none ∨ req.client_order_id = some "") → o.id = fid) ∧
      (place_order reg req fid).2.find?
        (fun e => e.id == o.id) = some o := by
  refine ⟨mkOrder req (pyOrStr req.client_order_id fid), ?_, rfl, rfl, rfl, rfl, ?_, ?_, ?_⟩
  · simp [place_order, hval, hscan]
  · intro s hs hne
    have hbe : s.isEmpty = false := by
      rw [Bool.eq_false_iff]
      intro hT
      exact hne ((String.isEmpty_iff s).mp hT)
    simp [mkOrder, pyOrStr, hs, hbe]
  · have he : ("" : String).isEmpty = true := rfl
    rintro (h | h) <;> simp [mkOrder, pyOrStr, h, he]
  · have h2 : place_order reg req fid =
        (.ok (mkOrder req (pyOrStr req.client_order_id fid)),
         dictInsert reg (mkOrder req (pyOrStr req.client_order_id fid))) := by
      simp [place_order, hval, hscan]
    rw [h2]
    exact dictInsert_find reg (mkOrder req (pyOrStr req.client_order_id fid))

/-- Witness for the amended C8 at a concrete request with client order id
"abc" and fresh id "u9" on the empty registry. -/
theorem C8_witness :
    ∃ o, place_order [] reqCid "u9" = (.ok o, dictInsert [] o) ∧
      o.symbol = reqCid.symbol.toUpper ∧ o.status = "NEW" ∧
      o.filled_qty = 0 ∧ o.avg_fill_price = none ∧
      (∀ s, reqCid.client_order_id = some s → s ≠ "" → o.id = s) ∧
      ((reqCid.client_order_id = none ∨ reqCid.client_order_id = some "") → o.id = "u9") ∧
      (place_order [] reqCid "u9").2.find?
        (fun e => e.id == o.id) = some o :=
  C8_new_order_creation [] reqCid "u9" (by decide) rfl

end Kalshi
